import Mathlib

/-!
Shallow embedding of `t5/evaluation/evaluator.py` (class `Evaluator`) from the
text-to-text-transfer-transformer repository, together with proofs about the
sequence-length reconciliation in `Evaluator.__init__` (lines 108-128) and the
`Evaluator.evaluate` pipeline (lines 202-242).

Modelling conventions:
* Python exceptions are modelled by `Except PyError`.
* A Python tuple returned by `predict_fn` is modelled as the list of its
  components (`PredElem`), so that tuples of the wrong arity can be expressed.
* Python's stable `sorted(..., key=lambda x: x[0])` is modelled by Mathlib's
  stable `List.insertionSort` on key-decorated elements, after extracting every
  key `x[0]` (extraction of a key raises IndexError on an empty tuple, exactly
  as `x[0]` does; a non-integer key is modelled as a TypeError, standing for
  the TypeError Python raises when such keys get compared).
* Python dicts keyed by task name are association lists in insertion order:
  assignment overwrites in place or appends, lookup raises KeyError if absent.
* The collaborators that the evaluator only calls through an interface
  (vocabulary decode, postprocess_fn, metric_fns, the feature-converted cached
  dataset consumed by `predict_fn`) are opaque function fields / an opaque
  type parameter `D`, as they are external to this repository's single module.
* The summary-writer lifecycle is a Boolean field recording whether `__init__`
  assigned `_summary_writer` (only under `if summary_dir:`, lines 146-148).
  `_log_eval_results` reads the `summary_writer` property (lines 255/261/265
  via the property at lines 284-286) on every call, so it raises
  AttributeError whenever the attribute was never assigned; its log lines and
  summary records otherwise have no effect on the returned value.
-/

namespace T5Eval

/-- Python values appearing as components of the tuples that `predict_fn`
returns: an integer index or a sequence of token ids. -/
inductive PyVal where
  | int (n : Int)
  | tokens (ts : List Int)
deriving DecidableEq

/-- Python exceptions raised by the modelled code paths. -/
inductive PyError where
  | valueError (msg : String)
  | indexError
  | typeError
  | keyError (key : String)
  | attributeError (attr : String)
  | unboundLocalError (varName : String)
deriving DecidableEq

/-- Sequence-length mapping: the source reads exactly the keys `"inputs"` and
`"targets"` of `sequence_lengths` and `max_lengths` (lines 111-121). -/
structure SeqLengths where
  inputs : Nat
  targets : Nat
deriving DecidableEq

/-- Which advisory warning `Evaluator.__init__` emits about explicitly supplied
sequence lengths: the truncation warning of lines 113-118 or the
wasted-computation warning of lines 122-127. -/
inductive LenWarning where
  | truncation
  | waste
deriving DecidableEq

/-- Lines 108-128 of `Evaluator.__init__`: reconcile explicitly supplied
`sequence_lengths` with the observed `max_lengths`. The if/elif/elif chain has
no else branch, so when explicit lengths are supplied and neither the
strictly-less nor the strictly-greater condition holds (both features equal),
the local variable `lengths` is never assigned; its first use at line 133
(inside the feature-conversion loop over the non-empty `self._eval_tasks`)
raises `UnboundLocalError`. -/
def reconcileSequenceLengths (sequence_lengths : Option SeqLengths)
    (max_lengths : SeqLengths) : Except PyError (SeqLengths × Option LenWarning) :=
  match sequence_lengths with
  | none => .ok (max_lengths, none)
  | some sl =>
    if sl.inputs < max_lengths.inputs ∨ sl.targets < max_lengths.targets then
      .ok (sl, some .truncation)
    else if sl.inputs > max_lengths.inputs ∨ sl.targets > max_lengths.targets then
      .ok (sl, some .waste)
    else
      .error (.unboundLocalError "lengths")

/-- One element of the sequence returned by `predict_fn`: a Python tuple,
modelled as the list of its components. A well-formed element is the 2-tuple
`(index, token_ids)`. -/
abbrev PredElem := List PyVal

/-- Decides whether an element returned by `predict_fn` is a well-formed
`(index, token_ids)` 2-tuple. -/
def isWFPair : PredElem → Bool
  | [PyVal.int _, PyVal.tokens _] => true
  | _ => false

/-- Key extraction `x[0]` done by `sorted(..., key=lambda x: x[0])` at line
213, decorating the element with its key: raises IndexError on an empty tuple;
a non-integer key is a TypeError (Python would raise it when comparing such
keys during the sort). -/
def extractKey (x : PredElem) : Except PyError (Int × PredElem) :=
  match x with
  | PyVal.int k :: _ => .ok (k, x)
  | PyVal.tokens _ :: _ => .error .typeError
  | [] => .error .indexError

/-- Python `x[1]`, as used by the comprehension at lines 212-214: raises
IndexError when the tuple has fewer than two components. -/
def getSecond (x : PredElem) : Except PyError PyVal :=
  match x.get? 1 with
  | some v => .ok v
  | none => .error .indexError

/-- Comparison used by the modelled `sorted(..., key=lambda x: x[0])`: compare
decorated elements by their integer key. -/
def keyLE (a b : Int × PredElem) : Prop := a.1 ≤ b.1

/-- Strict version of `keyLE`, used to state uniqueness of the sorted order
when all keys are distinct. -/
def keyLT (a b : Int × PredElem) : Prop := a.1 < b.1

instance keyLE_decidable : DecidableRel keyLE :=
  fun a b => inferInstanceAs (Decidable (a.1 ≤ b.1))

instance keyLT_decidable : DecidableRel keyLT :=
  fun a b => inferInstanceAs (Decidable (a.1 < b.1))

instance keyLE_total : IsTotal (Int × PredElem) keyLE :=
  ⟨fun a b => Int.le_total a.1 b.1⟩

instance keyLE_trans : IsTrans (Int × PredElem) keyLE :=
  ⟨fun _ _ _ hab hbc => le_trans hab hbc⟩

instance keyLT_antisymm : IsAntisymm (Int × PredElem) keyLT :=
  ⟨fun _ _ h₁ h₂ => absurd (lt_trans h₁ h₂) (lt_irrefl _)⟩

/-- Exception-raising map over a list, modelling a Python list comprehension
whose body may raise. -/
def exMapM {α β : Type} (f : α → Except PyError β) : List α → Except PyError (List β)
  | [] => .ok []
  | a :: l => do
    let b ← f a
    let bs ← exMapM f l
    .ok (b :: bs)

/-- Exception-raising left fold over a list, modelling a Python for-loop whose
body may raise (the loop aborts at the first exception). -/
def exFoldlM {σ α : Type} (f : σ → α → Except PyError σ) : σ → List α → Except PyError σ
  | s, [] => .ok s
  | s, a :: l => do
    let s' ← f s a
    exFoldlM f s' l

/-- Lines 206-214 of `Evaluator.evaluate`, for one task: the shape check
`len(indices_and_output_tokens[0]) != 2` (IndexError on an empty result,
ValueError when the first element is not a 2-tuple) followed by
`[x[1] for x in sorted(indices_and_output_tokens, key=lambda x: x[0])]`. -/
def restoreOrder (indices_and_output_tokens : List PredElem) :
    Except PyError (List PyVal) :=
  match indices_and_output_tokens with
  | [] => .error .indexError
  | x0 :: _ =>
    if x0.length ≠ 2 then
      .error (.valueError
        "Output from the predict_fn should be a sequence of length-2 tuple with (index, decoding) format")
    else do
      let keyed ← exMapM extractKey indices_and_output_tokens
      exMapM (fun kx => getSecond kx.2) (List.insertionSort keyLE keyed)

/-- Total key reading for well-formed elements (first component, when it is an
integer); only used to state what `restoreOrder` computes. -/
def pairKey : PredElem → Int
  | PyVal.int k :: _ => k
  | _ => 0

/-- Total second-component reading for tuples with at least two components;
only used to state what `restoreOrder` computes. -/
def pairVal : PredElem → PyVal
  | _ :: v :: _ => v
  | _ => PyVal.int 0

/-- The value `restoreOrder` returns on well-formed input: decorate each
element with its index key, sort stably by key ascending, discard the key and
keep the second tuple component. -/
def restoredTokens (r : List PredElem) : List PyVal :=
  (List.insertionSort keyLE (r.map (fun x => (pairKey x, x)))).map
    (fun kx => pairVal kx.2)

/-- A metric function, as registered on a task: maps (targets, predictions) to
a mapping from metric name to value. -/
abbrev MetricFn := List String → List String → List (String × ℚ)

/-- The slice of a `t5.data` task object that `Evaluator.evaluate` uses: its
name, the target-feature vocabulary's decode, `postprocess_fn` and
`metric_fns`. `Ex` is the type of the raw cached examples passed to
`postprocess_fn`. -/
structure Task (Ex : Type) where
  name : String
  decode : List Int → String
  postprocess_fn : String → Ex → Bool → String
  metric_fns : List MetricFn

/-- Evaluator state after construction: the valid eval tasks and the per-task
caches built once by `__init__` (lines 130-144). `D` is the type of the cached
enumerated datasets; they are opaque here, only handed to `predict_fn`.
`summary_writer_assigned` records whether `__init__` was given a `summary_dir`
and therefore assigned `self._summary_writer` at line 148; when it is `false`
(the default configuration), reading the `summary_writer` property raises
AttributeError. -/
structure Evaluator (Ex D : Type) where
  eval_tasks : List (Task Ex)
  cached_ds : String → D
  cached_examples : String → List Ex
  cached_targets : String → List String
  summary_writer_assigned : Bool

/-- Python dict assignment `d[k] = v`: overwrite in place when the key exists,
otherwise append (dicts preserve insertion order). -/
def dictInsert {α : Type} : List (String × α) → String → α → List (String × α)
  | [], k, v => [(k, v)]
  | (k', v') :: rest, k, v =>
    if k' = k then (k, v) :: rest else (k', v') :: dictInsert rest k v

/-- Python dict lookup `d[k]`: KeyError when the key is absent. -/
def dictGet {α : Type} (d : List (String × α)) (k : String) : Except PyError α :=
  match d.find? (fun p => p.1 == k) with
  | some p => .ok p.2
  | none => .error (.keyError k)

/-- Keys of a modelled dict, in order. -/
def dictKeys {α : Type} (d : List (String × α)) : List String := d.map Prod.fst

/-- Python `[int(token) for token in tokens]` at line 227: the identity on a
sequence of integers; iterating a non-sequence (a bare integer) raises
TypeError. -/
def tokenIntList : PyVal → Except PyError (List Int)
  | .tokens ts => .ok ts
  | .int _ => .error .typeError

/-- Outputs and metrics types mirroring the aliases at lines 26-28. -/
abbrev AllOutputsType := List (String × List PyVal)

/-- Per-task metrics: for each task name, the list of metric-function outputs. -/
abbrev AllMetricsType := List (String × List (List (String × ℚ)))

/-- Return type of `Evaluator.evaluate` (line 28). -/
abbrev OutputsAndMetricsType := AllOutputsType × Option AllMetricsType

/-- Lines 219-237 of `Evaluator.evaluate`, for one task: decode every token
sequence with the task's target vocabulary, post-process each decoded output
zipped with its raw cached example (`is_target=False`; `zip` truncates to the
shorter list), then apply every registered metric function to
`(targets, predictions)`. -/
def taskMetrics {Ex : Type} (task : Task Ex) (task_examples : List Ex)
    (targets : List String) (output_tokens : List PyVal) :
    Except PyError (List (List (String × ℚ))) := do
  let outputs ← exMapM (fun tokens => do
      let ts ← tokenIntList tokens
      .ok (task.decode ts)) output_tokens
  let predictions := (outputs.zip task_examples).map
      (fun p => task.postprocess_fn p.1 p.2 false)
  .ok (task.metric_fns.map (fun metric_fn => metric_fn targets predictions))

/-- Body of the first per-task loop of `evaluate` (lines 205-214): run
`predict_fn` on the task's cached dataset, restore order, store the result
under the task's name. -/
def outputsStep {Ex D : Type} (cached_ds : String → D)
    (predict_fn : D → List PredElem) (acc : AllOutputsType) (task : Task Ex) :
    Except PyError AllOutputsType := do
  let toks ← restoreOrder (predict_fn (cached_ds task.name))
  .ok (dictInsert acc task.name toks)

/-- Lines 245-266, `_log_eval_results`: emits log lines and, when a summary
writer exists, summary records — none of which affect the returned value. But
every call reaches a read of the `summary_writer` property (line 255 inside
the metric loops and, even when `task_metrics` is empty, the flush guard at
line 265), and the property (lines 284-286) returns `self._summary_writer`,
which `__init__` assigns only under `if summary_dir:` (lines 146-148): when no
summary directory was configured, the read raises AttributeError. A missing
`step` is substituted by -1 with a warning (lines 248-251), affecting only the
log text. -/
def logEvalResults {Ex D : Type} (e : Evaluator Ex D)
    (task_metrics : List (List (String × ℚ))) (step : Option Int) :
    Except PyError Unit :=
  if e.summary_writer_assigned then .ok () else
    .error (.attributeError "_summary_writer")

/-- Body of the metrics loop of `evaluate` (lines 218-240): look up the task's
restored output tokens, compute its metrics, store them under the task's name,
then call `_log_eval_results` (line 240), which raises AttributeError when
construction had no `summary_dir`. -/
def metricsStep {Ex D : Type} (e : Evaluator Ex D) (step : Option Int)
    (all_output_tokens : AllOutputsType) (acc : AllMetricsType)
    (task : Task Ex) : Except PyError AllMetricsType := do
  let output_tokens ← dictGet all_output_tokens task.name
  let ms ← taskMetrics task (e.cached_examples task.name)
      (e.cached_targets task.name) output_tokens
  let acc' := dictInsert acc task.name ms
  let _ ← logEvalResults e ms step
  .ok acc'

/-- Lines 202-242, `Evaluator.evaluate`: build `all_output_tokens` from
`predict_fn` per task, then, when `compute_metrics` is set, compute
`all_metrics` per task; `all_metrics` stays `None` otherwise. The method
assigns no attribute of `self`, so the evaluator state is returned unchanged
alongside the result (explicit state passing). -/
def Evaluator.evaluate {Ex D : Type} (e : Evaluator Ex D)
    (compute_metrics : Bool) (step : Option Int)
    (predict_fn : D → List PredElem) :
    Evaluator Ex D × Except PyError OutputsAndMetricsType :=
  (e, do
    let all_output_tokens ← exFoldlM (outputsStep e.cached_ds predict_fn) []
        e.eval_tasks
    if compute_metrics then
      let all_metrics ← exFoldlM (metricsStep e step all_output_tokens) []
          e.eval_tasks
      .ok (all_output_tokens, some all_metrics)
    else
      .ok (all_output_tokens, none))

/-- The in-order predictor result for token sequences `ts`: the pairs
`(0, ts[0]), ..., (N-1, ts[N-1])`, exactly as an order-preserving predictor
returns them for the dataset enumerated at line 137. -/
def enumPairs (ts : List (List Int)) : List PredElem :=
  ((List.range ts.length).zip ts).map
    (fun p => [PyVal.int (Int.ofNat p.1), PyVal.tokens p.2])

/-- Token sequences carried by the restored outputs: reads off the decoded
token list of a well-formed output value (used only in statements). -/
def pvTokens : PyVal → List Int
  | .tokens ts => ts
  | .int _ => []

/-- The predictions computed at lines 226-233 from restored output tokens:
decode each token sequence, zip with the raw cached examples (truncating) and
post-process with `is_target=False` (used only in statements). -/
def predictionsOf {Ex : Type} (task : Task Ex) (task_examples : List Ex)
    (output_tokens : List PyVal) : List String :=
  ((output_tokens.map (fun v => task.decode (pvTokens v))).zip task_examples).map
    (fun p => task.postprocess_fn p.1 p.2 false)

/-- A concrete task with no metric functions, for instantiating theorems. -/
def taskU : Task Unit := ⟨"t", fun _ => "", fun d _ _ => d, []⟩

/-- A concrete single-task evaluator in the default configuration (no
`summary_dir`), for instantiating theorems. -/
def evalU : Evaluator Unit Unit :=
  ⟨[taskU], fun _ => (), fun _ => [], fun _ => [], false⟩

/-- A concrete evaluator whose active task set is empty (the constructor
returned early at line 93, in the default configuration), for instantiating
theorems. -/
def evalEmpty : Evaluator Unit Unit :=
  ⟨[], fun _ => (), fun _ => [], fun _ => [], false⟩

/-- A predictor result whose second element is a malformed 3-tuple while the
first element is a well-formed 2-tuple. -/
def predMalformedLater : Unit → List PredElem :=
  fun _ => [[PyVal.int 0, PyVal.tokens [1]], [PyVal.int 1, PyVal.tokens [2], PyVal.int 7]]

/-- A predictor result whose first element is a malformed 3-tuple. -/
def predMalformedFirst : Unit → List PredElem :=
  fun _ => [[PyVal.int 0, PyVal.tokens [1], PyVal.int 9]]

/-- An exact-match metric function: fraction of positions where target and
prediction coincide. -/
def exactMatchMetric : MetricFn := fun targets predictions =>
  [("accuracy",
    (((targets.zip predictions).filter (fun p => p.1 == p.2)).length : ℚ) /
      (targets.length : ℚ))]

/-- A concrete vocabulary decode for instantiating theorems. -/
def vocabABC : List Int → String := fun ts =>
  if ts = [1] then "a" else if ts = [2] then "b" else if ts = [3] then "c"
  else if ts = [24] then "x" else "?"

/-- A concrete task carrying the exact-match metric. -/
def taskABC : Task Unit := ⟨"t", vocabABC, fun d _ _ => d, [exactMatchMetric]⟩

/-- A concrete evaluator with three cached examples and targets a, b, c,
constructed with a `summary_dir` (so the summary writer exists). -/
def evalABC : Evaluator Unit Unit :=
  ⟨[taskABC], fun _ => (), fun _ => [(), (), ()], fun _ => ["a", "b", "c"], true⟩

/-- The same evaluator in the default configuration: no `summary_dir`, so
`_summary_writer` was never assigned. -/
def evalABCdefault : Evaluator Unit Unit :=
  ⟨[taskABC], fun _ => (), fun _ => [(), (), ()], fun _ => ["a", "b", "c"], false⟩

/-- A predictor returning, in order, token sequences decoding to a, x, c. -/
def predAXC : Unit → List PredElem := fun _ => enumPairs [[1], [24], [3]]

/-- A predictor returning two pairs with stray indices 5 and -3 (fewer pairs
than the three cached examples of `evalABC`, indices outside 0..N-1). -/
def predStray : Unit → List PredElem :=
  fun _ => [[PyVal.int 5, PyVal.tokens [2]], [PyVal.int (-3), PyVal.tokens [1]]]

/-- In-order and permuted predictor results over the same two examples. -/
def predInOrder : Unit → List PredElem := fun _ => enumPairs [[1], [2]]

/-- The reversal of `predInOrder`'s result. -/
def predReversed : Unit → List PredElem := fun _ => (enumPairs [[1], [2]]).reverse

/-- A well-formed single-example predictor. -/
def predSingle : Unit → List PredElem := fun _ => enumPairs [[5]]

/-! ### Basic reduction lemmas for the exception monad -/

/-- Bind on a successful `Except` computation. -/
theorem exceptOk_bind {α β : Type} (a : α) (f : α → Except PyError β) :
    ((Except.ok a : Except PyError α) >>= f) = f a := rfl

/-- Bind on a failed `Except` computation. -/
theorem exceptError_bind {α β : Type} (err : PyError) (f : α → Except PyError β) :
    ((Except.error err : Except PyError α) >>= f) = Except.error err := rfl

/-- Unfolding lemma for `exFoldlM` on the empty list. -/
theorem exFoldlM_nil {σ α : Type} (f : σ → α → Except PyError σ) (s : σ) :
    exFoldlM f s ([] : List α) = .ok s := rfl

/-- Unfolding lemma for `exFoldlM` on a cons. -/
theorem exFoldlM_cons {σ α : Type} (f : σ → α → Except PyError σ) (s : σ)
    (a : α) (l : List α) :
    exFoldlM f s (a :: l) = (f s a) >>= (fun s' => exFoldlM f s' l) := rfl

/-! ### Well-formed predictor elements -/

/-- Unfolding lemma for `exMapM` on the empty list. -/
theorem exMapM_nil {α β : Type} (f : α → Except PyError β) :
    exMapM f ([] : List α) = .ok [] := rfl

/-- Unfolding lemma for `exMapM` on a cons. -/
theorem exMapM_cons {α β : Type} (f : α → Except PyError β) (a : α) (l : List α) :
    exMapM f (a :: l) =
      (f a) >>= (fun b => (exMapM f l) >>= (fun bs => Except.ok (b :: bs))) := rfl

/-- A well-formed predictor element is exactly a 2-tuple of an integer index
and a token sequence. -/
theorem wf_shape (x : PredElem) (h : isWFPair x = true) :
    ∃ k ts, x = [PyVal.int k, PyVal.tokens ts] := by
  rcases x with _ | ⟨a, _ | ⟨b, _ | ⟨c, l⟩⟩⟩
  · exact absurd h (by decide)
  · rcases a with k | ts <;> simp [isWFPair] at h
  · rcases a with k | ts <;> rcases b with m | us <;> simp [isWFPair] at h
    exact ⟨k, us, rfl⟩
  · rcases a with k | ts <;> rcases b with m | us <;> simp [isWFPair] at h

/-- Key extraction succeeds on a well-formed element. -/
theorem extractKey_wf (x : PredElem) (h : isWFPair x = true) :
    extractKey x = .ok (pairKey x, x) := by
  obtain ⟨k, ts, rfl⟩ := wf_shape x h
  rfl

/-- Reading the second tuple component succeeds on a well-formed element. -/
theorem getSecond_wf (x : PredElem) (h : isWFPair x = true) :
    getSecond x = .ok (pairVal x) := by
  obtain ⟨k, ts, rfl⟩ := wf_shape x h
  rfl

/-- A well-formed element has exactly two components. -/
theorem length_wf (x : PredElem) (h : isWFPair x = true) : x.length = 2 := by
  obtain ⟨k, ts, rfl⟩ := wf_shape x h
  rfl

/-- When the body succeeds on every element, `exMapM` is a plain map. -/
theorem exMapM_ok {α β : Type} (f : α → Except PyError β) (g : α → β) :
    ∀ l : List α, (∀ x ∈ l, f x = .ok (g x)) → exMapM f l = .ok (l.map g) := by
  intro l
  induction l with
  | nil => intro _; rfl
  | cons a rest ih =>
    intro h
    rw [exMapM_cons, h a (List.mem_cons_self a rest), exceptOk_bind,
      ih (fun x hx => h x (List.mem_cons_of_mem a hx)), exceptOk_bind,
      List.map_cons]

/-! ### Uniqueness of the sorted order under distinct keys -/

/-- A list sorted by non-strict key order with pairwise-distinct keys is
sorted by strict key order. -/
theorem sorted_keyLT_of_nodup (s : List (Int × PredElem))
    (hs : List.Sorted keyLE s) (hnd : (s.map Prod.fst).Nodup) :
    List.Sorted keyLT s := by
  have hne : s.Pairwise (fun a b => a.1 ≠ b.1) := List.pairwise_map.mp hnd
  have hle : s.Pairwise keyLE := hs
  exact List.Pairwise.imp (fun h => lt_of_le_of_ne h.1 h.2) (hle.and hne)

/-- Sorting two permutations of the same key-decorated list with
pairwise-distinct keys yields the same list: the canonical order restored at
line 213 does not depend on the order `predict_fn` returned the pairs in. -/
theorem insertionSort_eq_of_perm_nodup (l₁ l₂ : List (Int × PredElem))
    (hp : l₁.Perm l₂) (hnd : (l₁.map Prod.fst).Nodup) :
    List.insertionSort keyLE l₁ = List.insertionSort keyLE l₂ := by
  have hperm : (List.insertionSort keyLE l₁).Perm (List.insertionSort keyLE l₂) :=
    (List.perm_insertionSort keyLE l₁).trans
      (hp.trans (List.perm_insertionSort keyLE l₂).symm)
  have hnd₁ : ((List.insertionSort keyLE l₁).map Prod.fst).Nodup :=
    (List.Perm.nodup_iff ((List.perm_insertionSort keyLE l₁).map Prod.fst)).mpr hnd
  have hnd₂ : ((List.insertionSort keyLE l₂).map Prod.fst).Nodup :=
    (List.Perm.nodup_iff (hperm.map Prod.fst)).mp hnd₁
  exact List.eq_of_perm_of_sorted hperm
    (sorted_keyLT_of_nodup _ (List.sorted_insertionSort keyLE l₁) hnd₁)
    (sorted_keyLT_of_nodup _ (List.sorted_insertionSort keyLE l₂) hnd₂)

/-! ### What `restoreOrder` computes on well-formed input -/

/-- On a non-empty sequence of well-formed 2-tuples, the ordering-restoration
step succeeds and returns `restoredTokens`. -/
theorem restoreOrder_wf (r : List PredElem) (hne : r ≠ [])
    (hwf : ∀ x ∈ r, isWFPair x = true) :
    restoreOrder r = .ok (restoredTokens r) := by
  cases r with
  | nil => exact absurd rfl hne
  | cons x0 rest =>
    have h0 : x0.length = 2 := length_wf x0 (hwf x0 (List.mem_cons_self x0 rest))
    simp only [restoreOrder]
    rw [if_neg (not_not_intro h0)]
    rw [exMapM_ok extractKey (fun x => (pairKey x, x)) (x0 :: rest)
      (fun x hx => extractKey_wf x (hwf x hx)), exceptOk_bind]
    have h2 : ∀ kx ∈ List.insertionSort keyLE
        ((x0 :: rest).map (fun x => (pairKey x, x))),
        getSecond kx.2 = Except.ok (pairVal kx.2) := by
      intro kx hkx
      have hmem : kx ∈ (x0 :: rest).map (fun x => (pairKey x, x)) :=
        (List.perm_insertionSort keyLE _).subset hkx
      obtain ⟨x, hx, rfl⟩ := List.mem_map.mp hmem
      exact getSecond_wf x (hwf x hx)
    rw [exMapM_ok _ (fun kx => pairVal kx.2) _ h2]
    rfl

/-- The restored sequence has one entry per returned pair: no count validation
happens. -/
theorem restoredTokens_length (r : List PredElem) :
    (restoredTokens r).length = r.length := by
  unfold restoredTokens
  rw [List.length_map, (List.perm_insertionSort keyLE _).length_eq,
    List.length_map]

/-- Every restored output of a well-formed predictor result is a token
sequence. -/
theorem restoredTokens_tokens (r : List PredElem)
    (hwf : ∀ x ∈ r, isWFPair x = true) :
    ∀ v ∈ restoredTokens r, ∃ ts, v = PyVal.tokens ts := by
  intro v hv
  unfold restoredTokens at hv
  obtain ⟨kx, hkx, rfl⟩ := List.mem_map.mp hv
  have hmem := (List.perm_insertionSort keyLE _).subset hkx
  obtain ⟨x, hx, rfl⟩ := List.mem_map.mp hmem
  obtain ⟨k, ts, rfl⟩ := wf_shape x (hwf x hx)
  exact ⟨ts, rfl⟩

/-! ### Dict lemmas -/

/-- Assigning a fresh key appends the binding at the end. -/
theorem dictInsert_append {α : Type} (d : List (String × α)) (k : String) (v : α)
    (h : k ∉ dictKeys d) : dictInsert d k v = d ++ [(k, v)] := by
  induction d with
  | nil => rfl
  | cons p rest ih =>
    rcases p with ⟨k', v'⟩
    have h' : ¬k = k' ∧ k ∉ dictKeys rest := by
      rw [dictKeys, List.map_cons] at h
      exact ⟨fun he => h (he ▸ List.mem_cons_self _ _),
        fun hm => h (List.mem_cons_of_mem _ hm)⟩
    simp only [dictInsert]
    rw [if_neg (fun he => h'.1 he.symm), ih h'.2, List.cons_append]

/-- Looking up a task's name in the dict built over tasks with pairwise
distinct names retrieves that task's value. -/
theorem dictGet_map_nodup {Ex β : Type} (g : Task Ex → β) :
    ∀ ts : List (Task Ex), (ts.map Task.name).Nodup →
      ∀ t ∈ ts, dictGet (ts.map fun u => (u.name, g u)) t.name = .ok (g t) := by
  intro ts
  induction ts with
  | nil => intro _ t ht; exact absurd ht (List.not_mem_nil t)
  | cons u rest ih =>
    intro hnd t ht
    have hnd' : u.name ∉ rest.map Task.name ∧ (rest.map Task.name).Nodup :=
      List.nodup_cons.mp (by simpa using hnd)
    rw [List.map_cons]
    unfold dictGet
    by_cases he : u.name = t.name
    · rw [List.find?_cons_of_pos _ (by simp [he])]
      rcases List.mem_cons.mp ht with rfl | htr
      · rfl
      · exact absurd (List.mem_map.mpr ⟨t, htr, he.symm⟩) hnd'.1
    · rw [List.find?_cons_of_neg _ (by simp [he])]
      have htr : t ∈ rest := by
        rcases List.mem_cons.mp ht with rfl | htr
        · exact absurd rfl he
        · exact htr
      exact ih hnd'.2 t htr

/-- An exception-raising fold whose every step inserts a fresh binding builds
the dict of all bindings in task order. -/
theorem exFoldlM_dictInsert {Ex β : Type}
    (stepf : List (String × β) → Task Ex → Except PyError (List (String × β)))
    (v : Task Ex → β) :
    ∀ (ts : List (Task Ex)) (acc : List (String × β)),
      (∀ t ∈ ts, ∀ a, stepf a t = .ok (dictInsert a t.name (v t))) →
      (∀ t ∈ ts, t.name ∉ dictKeys acc) →
      (ts.map Task.name).Nodup →
      exFoldlM stepf acc ts = .ok (acc ++ ts.map fun t => (t.name, v t)) := by
  intro ts
  induction ts with
  | nil => intro acc _ _ _; rw [exFoldlM_nil, List.map_nil, List.append_nil]
  | cons t rest ih =>
    intro acc hstep hfresh hnd
    have hnd' : t.name ∉ rest.map Task.name ∧ (rest.map Task.name).Nodup :=
      List.nodup_cons.mp (by simpa using hnd)
    rw [exFoldlM_cons, hstep t (List.mem_cons_self t rest) acc, exceptOk_bind,
      dictInsert_append acc t.name (v t) (hfresh t (List.mem_cons_self t rest))]
    have hfresh' : ∀ u ∈ rest, u.name ∉ dictKeys (acc ++ [(t.name, v t)]) := by
      intro u hu
      rw [dictKeys, List.map_append]
      intro hmem
      rcases List.mem_append.mp hmem with hL | hR
      · exact hfresh u (List.mem_cons_of_mem t hu) hL
      · have huname : u.name = t.name := by simpa using hR
        exact hnd'.1 (huname ▸ List.mem_map.mpr ⟨u, hu, rfl⟩)
    rw [ih (acc ++ [(t.name, v t)])
      (fun u hu a => hstep u (List.mem_cons_of_mem t hu) a) hfresh' hnd'.2,
      List.append_assoc, List.singleton_append, List.map_cons]

/-! ### The metrics pipeline on token-sequence outputs -/

/-- On outputs that are all token sequences, the per-task metric computation
succeeds and applies every metric function to the cached targets together
with the decoded, zipped and post-processed predictions. -/
theorem taskMetrics_eq {Ex : Type} (task : Task Ex) (task_examples : List Ex)
    (targets : List String) (out : List PyVal)
    (h : ∀ v ∈ out, ∃ ts, v = PyVal.tokens ts) :
    taskMetrics task task_examples targets out =
      .ok (task.metric_fns.map fun metric_fn =>
        metric_fn targets (predictionsOf task task_examples out)) := by
  unfold taskMetrics
  rw [exMapM_ok _ (fun v => task.decode (pvTokens v)) out
    (fun v hv => by obtain ⟨ts, rfl⟩ := h v hv; rfl), exceptOk_bind]
  rfl

/-- Master characterization of `evaluate` for task sets with pairwise
distinct names and well-formed predictor results: the outputs mapping holds
each task's restored token sequences, and when `compute_metrics` is set the
metrics mapping holds, for each task, every metric function applied to the
cached targets and the decoded, aligned, post-processed predictions. The
metrics branch additionally requires the summary writer to exist, since
`_log_eval_results` raises AttributeError otherwise. -/
theorem evaluate_eq_of_wf {Ex D : Type} (e : Evaluator Ex D)
    (compute_metrics : Bool) (step : Option Int) (f : D → List PredElem)
    (hsw : compute_metrics = true → e.summary_writer_assigned = true)
    (hnd : (e.eval_tasks.map Task.name).Nodup)
    (hwf : ∀ t ∈ e.eval_tasks, f (e.cached_ds t.name) ≠ [] ∧
      ∀ x ∈ f (e.cached_ds t.name), isWFPair x = true) :
    e.evaluate compute_metrics step f = (e, .ok
      (e.eval_tasks.map fun t => (t.name, restoredTokens (f (e.cached_ds t.name))),
       if compute_metrics then
         some (e.eval_tasks.map fun t => (t.name,
           t.metric_fns.map fun metric_fn =>
             metric_fn (e.cached_targets t.name)
               (predictionsOf t (e.cached_examples t.name)
                 (restoredTokens (f (e.cached_ds t.name))))))
       else none)) := by
  unfold Evaluator.evaluate
  have hstep1 : ∀ t ∈ e.eval_tasks, ∀ a, outputsStep e.cached_ds f a t =
      Except.ok (dictInsert a t.name (restoredTokens (f (e.cached_ds t.name)))) := by
    intro t ht a
    unfold outputsStep
    rw [restoreOrder_wf _ (hwf t ht).1 (hwf t ht).2, exceptOk_bind]
  have hout := exFoldlM_dictInsert (outputsStep e.cached_ds f)
    (fun t => restoredTokens (f (e.cached_ds t.name))) e.eval_tasks [] hstep1
    (fun t _ h => absurd h (List.not_mem_nil _)) hnd
  rw [List.nil_append] at hout
  rw [hout, exceptOk_bind]
  cases compute_metrics with
  | false => simp
  | true =>
    have hstep2 : ∀ t ∈ e.eval_tasks, ∀ a, metricsStep e step
        (e.eval_tasks.map fun t => (t.name, restoredTokens (f (e.cached_ds t.name)))) a t =
        Except.ok (dictInsert a t.name (t.metric_fns.map fun metric_fn =>
          metric_fn (e.cached_targets t.name)
            (predictionsOf t (e.cached_examples t.name)
              (restoredTokens (f (e.cached_ds t.name)))))) := by
      intro t ht a
      unfold metricsStep
      rw [dictGet_map_nodup (fun u => restoredTokens (f (e.cached_ds u.name)))
        e.eval_tasks hnd t ht, exceptOk_bind,
        taskMetrics_eq t _ _ _ (restoredTokens_tokens _ (hwf t ht).2),
        exceptOk_bind]
      simp [logEvalResults, hsw rfl, exceptOk_bind]
    have hmet := exFoldlM_dictInsert
      (metricsStep e step (e.eval_tasks.map fun t =>
        (t.name, restoredTokens (f (e.cached_ds t.name)))))
      (fun t => t.metric_fns.map fun metric_fn =>
        metric_fn (e.cached_targets t.name)
          (predictionsOf t (e.cached_examples t.name)
            (restoredTokens (f (e.cached_ds t.name)))))
      e.eval_tasks [] hstep2 (fun t _ h => absurd h (List.not_mem_nil _)) hnd
    rw [List.nil_append] at hmet
    simp only [if_true]
    rw [hmet, exceptOk_bind]

/-! ### Congruence of `evaluate` in the predictor -/

/-- Folding two step functions that agree on every element of the list gives
the same result. -/
theorem exFoldlM_congr {σ α : Type} (f g : σ → α → Except PyError σ)
    (l : List α) (h : ∀ a ∈ l, ∀ s, f s a = g s a) :
    ∀ s, exFoldlM f s l = exFoldlM g s l := by
  induction l with
  | nil => intro _; rfl
  | cons a rest ih =>
    intro s
    rw [exFoldlM_cons, exFoldlM_cons, h a (List.mem_cons_self a rest) s]
    cases hga : g s a with
    | error err => rw [exceptError_bind, exceptError_bind]
    | ok s' =>
      rw [exceptOk_bind, exceptOk_bind]
      exact ih (fun x hx s₀ => h x (List.mem_cons_of_mem a hx) s₀) s'

/-- Two predictors whose results restore to the same order produce identical
evaluation results. -/
theorem evaluate_congr_predict {Ex D : Type} (e : Evaluator Ex D)
    (compute_metrics : Bool) (step : Option Int) (f₁ f₂ : D → List PredElem)
    (h : ∀ t ∈ e.eval_tasks, restoreOrder (f₂ (e.cached_ds t.name)) =
      restoreOrder (f₁ (e.cached_ds t.name))) :
    e.evaluate compute_metrics step f₂ = e.evaluate compute_metrics step f₁ := by
  unfold Evaluator.evaluate
  have heq : exFoldlM (outputsStep e.cached_ds f₂) [] e.eval_tasks
      = exFoldlM (outputsStep e.cached_ds f₁) [] e.eval_tasks :=
    exFoldlM_congr _ _ _ (fun t ht a => by unfold outputsStep; rw [h t ht]) []
  rw [heq]

/-! ### In-order predictor results -/

/-- Every element of an in-order predictor result is well-formed. -/
theorem enumPairs_wf (ts : List (List Int)) :
    ∀ x ∈ enumPairs ts, isWFPair x = true := by
  intro x hx
  obtain ⟨p, _, rfl⟩ := List.mem_map.mp hx
  rfl

/-- An in-order predictor result has one pair per example. -/
theorem enumPairs_length (ts : List (List Int)) :
    (enumPairs ts).length = ts.length := by
  unfold enumPairs
  simp [List.length_zip, List.length_range]

/-- The keys of an in-order predictor result are 0..N-1. -/
theorem enumPairs_keys (ts : List (List Int)) :
    (enumPairs ts).map pairKey = (List.range ts.length).map Int.ofNat := by
  unfold enumPairs
  rw [List.map_map]
  rw [show (pairKey ∘ fun p : ℕ × List Int =>
    [PyVal.int (Int.ofNat p.1), PyVal.tokens p.2]) = fun p => Int.ofNat p.1 from rfl]
  rw [show (fun p : ℕ × List Int => Int.ofNat p.1) = Int.ofNat ∘ Prod.fst from rfl,
    ← List.map_map,
    List.map_fst_zip _ _ (le_of_eq (List.length_range ts.length))]

/-- The keys of an in-order predictor result are pairwise distinct. -/
theorem enumPairs_keys_nodup (ts : List (List Int)) :
    ((enumPairs ts).map pairKey).Nodup := by
  rw [enumPairs_keys]
  exact List.Nodup.map (fun a b h => Int.ofNat.inj h) (List.nodup_range ts.length)

/-- Restoring order from any permutation of an in-order predictor result
gives the same outcome as from the in-order result itself. -/
theorem restoreOrder_perm_enumPairs (ts : List (List Int)) (q : List PredElem)
    (hp : q.Perm (enumPairs ts)) :
    restoreOrder q = restoreOrder (enumPairs ts) := by
  cases ts with
  | nil =>
    have hq : q = [] := hp.eq_nil
    rw [hq]
    rfl
  | cons a rest =>
    have hwfp := enumPairs_wf (a :: rest)
    have hwfq : ∀ x ∈ q, isWFPair x = true := fun x hx => hwfp x (hp.subset hx)
    have hnep : enumPairs (a :: rest) ≠ [] := by
      intro hcon
      have hlen := enumPairs_length (a :: rest)
      rw [hcon] at hlen
      simp at hlen
    have hneq : q ≠ [] := by
      intro hcon
      rw [hcon] at hp
      exact hnep hp.symm.eq_nil
    rw [restoreOrder_wf q hneq hwfq, restoreOrder_wf _ hnep hwfp]
    have hndq : ((q.map fun x => (pairKey x, x)).map Prod.fst).Nodup := by
      rw [List.map_map,
        show (Prod.fst ∘ fun x : PredElem => (pairKey x, x)) = pairKey from rfl]
      exact ((hp.map pairKey).nodup_iff).mpr (enumPairs_keys_nodup (a :: rest))
    unfold restoredTokens
    rw [insertionSort_eq_of_perm_nodup (q.map fun x => (pairKey x, x))
      ((enumPairs (a :: rest)).map fun x => (pairKey x, x)) (hp.map _) hndq]

/-! ### Claim theorems -/

/-- C2: the claim says construction never rejects explicitly supplied
sequence lengths and accepts the equal-on-all-features case silently. The code
disagrees: the if/elif/elif chain of lines 108-128 has no else branch, so in
the equal case the local `lengths` is never assigned and its use at line 133
raises UnboundLocalError; in particular with supplied lengths
`{inputs: 10, targets: 5}` equal to the observed maxima, construction fails
instead of completing silently. -/
theorem reconcile_equal_lengths_unbound :
    (∀ l : SeqLengths,
      reconcileSequenceLengths (some l) l = .error (.unboundLocalError "lengths")) ∧
    reconcileSequenceLengths (some ⟨10, 5⟩) ⟨10, 5⟩ =
      .error (.unboundLocalError "lengths") := by
  constructor
  · intro l
    simp [reconcileSequenceLengths]
  · rfl

/-- C8 counterexample: with supplied lengths `{inputs: 20, targets: 3}` and
observed maxima `{inputs: 10, targets: 5}`, the inputs length is strictly
greater than its observed maximum, yet construction emits the truncation
warning, not the wasted-computation warning: the strictly-less branch on the
other feature shadows the strictly-greater branch. -/
theorem reconcile_waste_shadowed_by_truncation :
    (20 : Nat) > 10 ∧
    reconcileSequenceLengths (some ⟨20, 3⟩) ⟨10, 5⟩ =
      .ok (⟨20, 3⟩, some LenWarning.truncation) ∧
    LenWarning.truncation ≠ LenWarning.waste := by
  refine ⟨by decide, rfl, by decide⟩

/-- C8 (amended): when some feature's supplied length is strictly greater than
its observed maximum AND no feature's supplied length is strictly less than
its observed maximum, construction accepts the supplied lengths and emits the
wasted-computation warning; when some feature is strictly less, the truncation
branch fires first instead. -/
theorem reconcile_waste_when_no_truncation (sl maxL : SeqLengths)
    (hgt : sl.inputs > maxL.inputs ∨ sl.targets > maxL.targets)
    (hnlt : ¬(sl.inputs < maxL.inputs ∨ sl.targets < maxL.targets)) :
    reconcileSequenceLengths (some sl) maxL = .ok (sl, some LenWarning.waste) := by
  simp only [reconcileSequenceLengths]
  rw [if_neg hnlt, if_pos hgt]

/-- C8 witness: at supplied `{inputs: 20, targets: 5}` and maxima
`{inputs: 10, targets: 5}`, the amended statement applies and yields the
wasted-computation warning. -/
theorem reconcile_waste_when_no_truncation_witness :
    ((20 : Nat) > 10 ∨ (5 : Nat) > 5) ∧
    reconcileSequenceLengths (some ⟨20, 5⟩) ⟨10, 5⟩ =
      .ok (⟨20, 5⟩, some LenWarning.waste) :=
  ⟨by decide, reconcile_waste_when_no_truncation ⟨20, 5⟩ ⟨10, 5⟩ (by decide) (by decide)⟩

/-- C4: when the resolved active task set is empty, `evaluate` with
`compute_metrics = true` is still callable and returns exactly the pair of an
empty outputs mapping and an empty (not None) metrics mapping. -/
theorem evaluate_no_active_tasks {Ex D : Type} (e : Evaluator Ex D)
    (h : e.eval_tasks = []) (step : Option Int) (predict_fn : D → List PredElem) :
    e.evaluate true step predict_fn = (e, .ok ([], some [])) := by
  simp [Evaluator.evaluate, h, exFoldlM, exceptOk_bind]

/-- C4 witness: the concrete evaluator with no active tasks returns
`({}, {})` from `evaluate(compute_metrics=True)`. -/
theorem evaluate_no_active_tasks_witness :
    evalEmpty.eval_tasks = [] ∧
    evalEmpty.evaluate true none (fun _ => []) = (evalEmpty, .ok ([], some [])) :=
  ⟨rfl, evaluate_no_active_tasks evalEmpty rfl none (fun _ => [])⟩

/-- C6: `evaluate` assigns no attribute of the evaluator, so the state coming
out of a call is the state that went in, and a second consecutive call with
the same deterministic `predict_fn` yields the identical outputs and metrics. -/
theorem evaluate_idempotent_state {Ex D : Type} (e : Evaluator Ex D)
    (compute_metrics : Bool) (step : Option Int) (predict_fn : D → List PredElem) :
    (e.evaluate compute_metrics step predict_fn).1 = e ∧
    ((e.evaluate compute_metrics step predict_fn).1).evaluate compute_metrics step predict_fn =
      e.evaluate compute_metrics step predict_fn ∧
    (e.evaluate compute_metrics step predict_fn).1.cached_examples = e.cached_examples ∧
    (e.evaluate compute_metrics step predict_fn).1.cached_targets = e.cached_targets ∧
    (e.evaluate compute_metrics step predict_fn).1.cached_ds = e.cached_ds :=
  ⟨rfl, rfl, rfl, rfl, rfl⟩

/-- C9: `evaluate` indexes the first element of the predictor's result
unconditionally to perform the shape check, so a predictor returning an empty
sequence for the first active task makes `evaluate` fail with IndexError — an
out-of-range indexing error distinct from the validation ValueError — rather
than return an empty output sequence for that task. -/
theorem evaluate_empty_predictor_raises_index_error {Ex D : Type}
    (e : Evaluator Ex D) (t : Task Ex) (rts : List (Task Ex))
    (ht : e.eval_tasks = t :: rts) (compute_metrics : Bool) (step : Option Int)
    (predict_fn : D → List PredElem)
    (hf : predict_fn (e.cached_ds t.name) = []) :
    e.evaluate compute_metrics step predict_fn = (e, .error .indexError) ∧
    ∀ msg, PyError.indexError ≠ PyError.valueError msg := by
  constructor
  · simp [Evaluator.evaluate, ht, exFoldlM_cons, outputsStep, hf, restoreOrder,
      exceptError_bind]
  · intro msg h
    cases h

/-- C9 witness: the concrete single-task evaluator with a predictor returning
the empty sequence fails with IndexError. -/
theorem evaluate_empty_predictor_raises_index_error_witness :
    evalU.eval_tasks = taskU :: [] ∧
    (fun _ => ([] : List PredElem)) (evalU.cached_ds taskU.name) = [] ∧
    evalU.evaluate true none (fun _ => []) = (evalU, .error .indexError) :=
  ⟨rfl, rfl,
    (evaluate_empty_predictor_raises_index_error evalU taskU [] rfl true none
      (fun _ => []) rfl).1⟩

/-- C3 counterexample: a predictor result whose second element is a 3-tuple
(not a length-2 pair) does not make `evaluate` raise the validation
ValueError: only the first element's shape is checked, and the malformed
element is silently coerced by keeping its second component. -/
theorem evaluate_accepts_malformed_later_element :
    (∃ x ∈ predMalformedLater (), x.length ≠ 2) ∧
    evalU.evaluate false none predMalformedLater =
      (evalU, .ok ([("t", [PyVal.tokens [1], PyVal.tokens [2]])], none)) := by
  refine ⟨⟨[PyVal.int 1, PyVal.tokens [2], PyVal.int 7], by decide, by decide⟩, rfl⟩

/-- C3 (amended): the shape validation of `evaluate` examines only the first
element of the predictor's result: when the first element of the result for
the first active task is not a length-2 tuple, `evaluate` raises the
validation ValueError and no outputs are returned for any task; malformed
elements after the first are not detected by this check. -/
theorem evaluate_malformed_first_element_raises {Ex D : Type}
    (e : Evaluator Ex D) (t : Task Ex) (rts : List (Task Ex))
    (ht : e.eval_tasks = t :: rts) (compute_metrics : Bool) (step : Option Int)
    (predict_fn : D → List PredElem) (x : PredElem) (rest : List PredElem)
    (hf : predict_fn (e.cached_ds t.name) = x :: rest) (hx : x.length ≠ 2) :
    e.evaluate compute_metrics step predict_fn =
      (e, .error (.valueError
        "Output from the predict_fn should be a sequence of length-2 tuple with (index, decoding) format")) := by
  simp [Evaluator.evaluate, ht, exFoldlM_cons, outputsStep, hf, restoreOrder, hx,
    exceptError_bind]

/-- C1: for every active task with cached examples whose in-order predictor
result carries the indices 0..N-1, a predictor returning any permutation of
those pairs makes `evaluate` produce exactly the same per-task output-token
sequences (and metrics) as the in-order predictor: the ordering-restoration
step sorts the returned pairs by index ascending and keeps the token
sequence, so the restored sequence is invariant under permutation. -/
theorem evaluate_permutation_invariant {Ex D : Type} (e : Evaluator Ex D)
    (compute_metrics : Bool) (step : Option Int) (f₁ f₂ : D → List PredElem)
    (h : ∀ t ∈ e.eval_tasks, ∃ ts : List (List Int),
      f₁ (e.cached_ds t.name) = enumPairs ts ∧
      (f₂ (e.cached_ds t.name)).Perm (f₁ (e.cached_ds t.name))) :
    e.evaluate compute_metrics step f₂ = e.evaluate compute_metrics step f₁ := by
  apply evaluate_congr_predict
  intro t ht
  obtain ⟨ts, hts, hperm⟩ := h t ht
  rw [hts] at hperm ⊢
  exact restoreOrder_perm_enumPairs ts _ hperm

/-- C1 witness: on the concrete single-task evaluator, the reversed predictor
result evaluates identically to the in-order one. -/
theorem evaluate_permutation_invariant_witness :
    (∀ t ∈ evalU.eval_tasks, ∃ ts : List (List Int),
      predInOrder (evalU.cached_ds t.name) = enumPairs ts ∧
      (predReversed (evalU.cached_ds t.name)).Perm
        (predInOrder (evalU.cached_ds t.name))) ∧
    evalU.evaluate false none predReversed = evalU.evaluate false none predInOrder := by
  have h : ∀ t ∈ evalU.eval_tasks, ∃ ts : List (List Int),
      predInOrder (evalU.cached_ds t.name) = enumPairs ts ∧
      (predReversed (evalU.cached_ds t.name)).Perm
        (predInOrder (evalU.cached_ds t.name)) := by
    intro t ht
    exact ⟨[[1], [2]], rfl,
      (by decide : ((enumPairs [[1], [2]]).reverse).Perm (enumPairs [[1], [2]]))⟩
  exact ⟨h, evaluate_permutation_invariant evalU false none predInOrder predReversed h⟩

/-- C5: the claim describes the intended metrics pipeline, but in the default
configuration (no `summary_dir`, so `__init__` never assigns
`_summary_writer`, lines 146-148) `evaluate(compute_metrics=True)` crashes
with AttributeError inside `_log_eval_results` (the `summary_writer` property
read at line 255/265 via lines 284-286) right after the first task's metrics
are computed, and never returns the metrics — even though every use of the
writer is guarded by `if self.summary_writer:`, showing the code intends the
no-writer configuration to work. With a summary writer configured, the
pipeline behaves exactly as claimed: for targets a, b, c and token sequences
decoding (after identity post-processing with `is_target=False`) to a, x, c,
the exact-match metric reports 2/3 accuracy. -/
theorem evaluate_metrics_crash_without_summary_writer :
    evalABCdefault.evaluate true none predAXC =
      (evalABCdefault, .error (.attributeError "_summary_writer")) ∧
    evalABC.evaluate true none predAXC =
      (evalABC, .ok
        ([("t", [PyVal.tokens [1], PyVal.tokens [24], PyVal.tokens [3]])],
         some [("t", [[("accuracy", (2 : ℚ) / 3)]])])) :=
  ⟨rfl, rfl⟩

/-- C7: with `compute_metrics = false` and a non-empty active task set,
`evaluate` returns a non-empty per-task output-tokens mapping as first
component and `none` as metrics component: the outputs are exactly the
restored token sequences, involving no decoding, no post-processing and no
metric computation. -/
theorem evaluate_without_metrics {Ex D : Type} (e : Evaluator Ex D)
    (step : Option Int) (f : D → List PredElem)
    (hne : e.eval_tasks ≠ [])
    (hnd : (e.eval_tasks.map Task.name).Nodup)
    (hwf : ∀ t ∈ e.eval_tasks, f (e.cached_ds t.name) ≠ [] ∧
      ∀ x ∈ f (e.cached_ds t.name), isWFPair x = true) :
    e.evaluate false step f = (e, .ok
      (e.eval_tasks.map fun t => (t.name, restoredTokens (f (e.cached_ds t.name))),
       none)) ∧
    (e.eval_tasks.map fun t =>
      (t.name, restoredTokens (f (e.cached_ds t.name)))) ≠ [] := by
  constructor
  · simpa using evaluate_eq_of_wf e false step f
      (fun h => Bool.noConfusion h) hnd hwf
  · intro hcon
    exact hne (List.map_eq_nil_iff.mp hcon)

/-- C7 witness: on the concrete single-task evaluator with a well-formed
predictor, `evaluate(compute_metrics=False)` returns the restored outputs and
`none` for metrics. -/
theorem evaluate_without_metrics_witness :
    evalU.evaluate false none predSingle =
      (evalU, .ok ([("t", [PyVal.tokens [5]])], none)) ∧
    ([("t", [PyVal.tokens [5]])] : AllOutputsType) ≠ [] := by
  have h := evaluate_without_metrics evalU none predSingle (List.cons_ne_nil _ _)
    (by decide) (fun t ht => ⟨(by decide : predSingle () ≠ []),
      (by decide : ∀ x ∈ predSingle (), isWFPair x = true)⟩)
  exact ⟨h.1, by decide⟩

/-- C10: `evaluate` never validates the number of returned pairs against the
number of cached examples or targets, nor that the indices lie in 0..N-1:
with a summary writer configured (so the metrics-loop logging does not raise
AttributeError — that crash is independent of pair counts and indices, hence
not a validation), any non-empty well-formed result is accepted without
error, the restored output keeps one entry per returned pair, and during
metric computation the decoded outputs are paired with the raw cached
examples by `zip`, silently truncating to the shorter of the two sequences. -/
theorem evaluate_accepts_any_count_and_indices {Ex D : Type} (e : Evaluator Ex D)
    (step : Option Int) (f : D → List PredElem)
    (hsw : e.summary_writer_assigned = true)
    (hnd : (e.eval_tasks.map Task.name).Nodup)
    (hwf : ∀ t ∈ e.eval_tasks, f (e.cached_ds t.name) ≠ [] ∧
      ∀ x ∈ f (e.cached_ds t.name), isWFPair x = true) :
    e.evaluate true step f = (e, .ok
      (e.eval_tasks.map fun t => (t.name, restoredTokens (f (e.cached_ds t.name))),
       some (e.eval_tasks.map fun t => (t.name,
         t.metric_fns.map fun metric_fn =>
           metric_fn (e.cached_targets t.name)
             (predictionsOf t (e.cached_examples t.name)
               (restoredTokens (f (e.cached_ds t.name)))))))) ∧
    ∀ t ∈ e.eval_tasks,
      (restoredTokens (f (e.cached_ds t.name))).length =
        (f (e.cached_ds t.name)).length ∧
      (predictionsOf t (e.cached_examples t.name)
        (restoredTokens (f (e.cached_ds t.name)))).length =
        min (f (e.cached_ds t.name)).length (e.cached_examples t.name).length := by
  constructor
  · simpa using evaluate_eq_of_wf e true step f (fun _ => hsw) hnd hwf
  · intro t ht
    refine ⟨restoredTokens_length _, ?_⟩
    unfold predictionsOf
    rw [List.length_map, List.length_zip, List.length_map, restoredTokens_length]

/-- C10 witness: two well-formed pairs with stray indices 5 and -3 against
three cached examples are accepted; the restored output has two entries and
the predictions are truncated to length two by `zip`. -/
theorem evaluate_accepts_any_count_and_indices_witness :
    evalABC.evaluate true none predStray =
      (evalABC, .ok
        ([("t", [PyVal.tokens [1], PyVal.tokens [2]])],
         some [("t", [[("accuracy", (2 : ℚ) / 3)]])])) ∧
    (predStray ()).length ≠ (evalABC.cached_examples "t").length ∧
    (predictionsOf taskABC (evalABC.cached_examples "t")
      (restoredTokens (predStray ()))).length = 2 := by
  have h := evaluate_accepts_any_count_and_indices evalABC none predStray rfl
    (by decide) (fun t ht => ⟨(by decide : predStray () ≠ []),
      (by decide : ∀ x ∈ predStray (), isWFPair x = true)⟩)
  exact ⟨h.1, by decide, by decide⟩

/-- C3 witness: a predictor whose first element is a 3-tuple makes `evaluate`
raise the validation ValueError. -/
theorem evaluate_malformed_first_element_raises_witness :
    evalU.eval_tasks = taskU :: [] ∧
    predMalformedFirst (evalU.cached_ds taskU.name) =
      [[PyVal.int 0, PyVal.tokens [1], PyVal.int 9]] ∧
    ([PyVal.int 0, PyVal.tokens [1], PyVal.int 9] : PredElem).length ≠ 2 ∧
    evalU.evaluate false none predMalformedFirst =
      (evalU, .error (.valueError
        "Output from the predict_fn should be a sequence of length-2 tuple with (index, decoding) format")) :=
  ⟨rfl, rfl, by decide,
    evaluate_malformed_first_element_raises evalU taskU [] rfl false none
      predMalformedFirst [PyVal.int 0, PyVal.tokens [1], PyVal.int 9] [] rfl
      (by decide)⟩

end T5Eval
